import Mathlib

/-!
Verification development for the eBay easy-lister repository.

The definitions below are a shallow embedding of the JavaScript source:

* `src/services/ebayApi.js` — XML escaping, condition/category mapping,
  the general and book XML request builders, and the Trading-API response
  parser;
* `server.js` (the concurrent variant) and `new-server.js` (the sequential
  variant) — the `POST /api/analyze` handler and `parseAndCleanResponse`;
* `src/services/ebayPostingService.js` — `postSingleListing`,
  `postAllListings`.

Strings are Lean `String`s; JavaScript objects holding string fields are
structures with `Option String` for possibly-`undefined` fields;
string-keyed objects used as maps are association lists preserving key
insertion order (as JavaScript objects do for string keys).  Network calls
are passed in as explicit oracles.
-/

set_option maxRecDepth 400000

namespace EbayEasyLister

/-! ## JavaScript value helpers -/

/-- JS truthiness of a possibly-`undefined`/`null` string value:
`undefined`, `null` and `""` are falsy, every other string is truthy. -/
def jsTruthy (o : Option String) : Bool :=
  match o with
  | none => false
  | some s => s ≠ ""

/-- JS `a || d` for a possibly-undefined string `a` and a string default. -/
def jsOr (o : Option String) (d : String) : String :=
  match o with
  | none => d
  | some s => if s = "" then d else s

/-- JS `a || b` where both operands are possibly-undefined strings. -/
def jsOrO (a b : Option String) : Option String :=
  if jsTruthy a then a else b

/-- Template-literal interpolation of a possibly-`undefined` value:
JS renders `undefined` as the text `"undefined"`. -/
def jsInterp (o : Option String) : String :=
  match o with
  | none => "undefined"
  | some s => s

/-! ## Association-list object operations

JavaScript objects with string keys keep keys in insertion order; setting
an existing key updates it in place, setting a new key appends it. -/

/-- Look a key up in an object (first binding wins; keys are unique). -/
def objGet (k : String) : List (String × String) → Option String
  | [] => none
  | (k', v) :: rest => if k' = k then some v else objGet k rest

/-- `obj[k] = v`: update in place if present, append otherwise. -/
def objSet (k v : String) : List (String × String) → List (String × String)
  | [] => [(k, v)]
  | (k', v') :: rest =>
      if k' = k then (k', v) :: rest else (k', v') :: objSet k v rest

/-! ## XML escaping (`escapeXml`, ebayApi.js lines 233–241)

The JS function applies five sequential global single-character
replacements, in this order: `&`→`&amp;`, `<`→`&lt;`, `>`→`&gt;`,
`"`→`&quot;`, `'`→`&#39;`. -/

/-- JS `String.replace(/c/g, r)` for a single-character pattern `c`. -/
def replaceChar (c : Char) (r : List Char) (s : List Char) : List Char :=
  s.flatMap (fun x => if x = c then r else [x])

/-- The five sequential replacements of `escapeXml`, in source order. -/
def escapeXmlChars (s : List Char) : List Char :=
  replaceChar '\'' "&#39;".data
    (replaceChar '"' "&quot;".data
      (replaceChar '>' "&gt;".data
        (replaceChar '<' "&lt;".data
          (replaceChar '&' "&amp;".data s))))

/-- `escapeXml` on `String`s.  (`escapeXml(undefined)` and
`escapeXml("")` both return `""`; callers below pass plain strings.) -/
def escapeXml (s : String) : String := ⟨escapeXmlChars s.data⟩

/-- Character-wise view of the replacement chain: because no replacement
entity contains a character replaced by a later step except `&` (already
handled first), the chain acts as one character-wise substitution. -/
def escChar (c : Char) : List Char :=
  if c = '&' then "&amp;".data
  else if c = '<' then "&lt;".data
  else if c = '>' then "&gt;".data
  else if c = '"' then "&quot;".data
  else if c = '\'' then "&#39;".data
  else [c]

theorem replaceChar_nil (c : Char) (r : List Char) : replaceChar c r [] = [] := rfl

theorem replaceChar_cons (c : Char) (r : List Char) (x : Char) (xs : List Char) :
    replaceChar c r (x :: xs) =
      (if x = c then r else [x]) ++ replaceChar c r xs := by
  simp [replaceChar]

theorem replaceChar_append (c : Char) (r : List Char) (a b : List Char) :
    replaceChar c r (a ++ b) = replaceChar c r a ++ replaceChar c r b := by
  simp [replaceChar]

theorem escapeXmlChars_nil : escapeXmlChars [] = [] := rfl

theorem escapeXmlChars_cons (x : Char) (xs : List Char) :
    escapeXmlChars (x :: xs) = escChar x ++ escapeXmlChars xs := by
  by_cases h1 : x = '&'
  · subst h1; simp [escapeXmlChars, replaceChar_cons, replaceChar_append, escChar]
  · by_cases h2 : x = '<'
    · subst h2; simp [escapeXmlChars, replaceChar_cons, replaceChar_append, escChar]
    · by_cases h3 : x = '>'
      · subst h3; simp [escapeXmlChars, replaceChar_cons, replaceChar_append, escChar]
      · by_cases h4 : x = '"'
        · subst h4; simp [escapeXmlChars, replaceChar_cons, replaceChar_append, escChar]
        · by_cases h5 : x = '\''
          · subst h5; simp [escapeXmlChars, replaceChar_cons, replaceChar_append, escChar]
          · simp [escapeXmlChars, replaceChar_cons, replaceChar_append, escChar,
              h1, h2, h3, h4, h5]

/-- The replacement chain equals the character-wise substitution. -/
theorem escapeXmlChars_eq_flatMap (s : List Char) :
    escapeXmlChars s = s.flatMap escChar := by
  induction s with
  | nil => rfl
  | cons x xs ih => rw [escapeXmlChars_cons, ih, List.flatMap_cons]

/-! ## The raw-ampersand scan

The spec's scan `&(?!amp;|lt;|gt;|quot;|#39;)`: a string is *amp-clean*
when every `&` it contains is immediately followed by one of the five
entity tails. -/

/-- Does `rest` begin with one of `amp;`, `lt;`, `gt;`, `quot;`, `#39;`? -/
def ampOk (rest : List Char) : Bool :=
  "amp;".data.isPrefixOf rest || "lt;".data.isPrefixOf rest ||
  "gt;".data.isPrefixOf rest || "quot;".data.isPrefixOf rest ||
  "#39;".data.isPrefixOf rest

/-- Every `&` is followed by a complete allowed entity tail. -/
def ampClean : List Char → Bool
  | [] => true
  | c :: rest => (if c = '&' then ampOk rest else true) && ampClean rest

/-- A string with no `&` at all is amp-clean, and so is every escaped
entity; prefix checks are monotone under appending on the right. -/
theorem isPrefixOf_append_right (p l r : List Char) (h : p.isPrefixOf l = true) :
    p.isPrefixOf (l ++ r) = true := by
  induction p generalizing l with
  | nil => simp [List.isPrefixOf]
  | cons c cs ih =>
      cases l with
      | nil => simp [List.isPrefixOf] at h
      | cons x xs =>
          simp only [List.isPrefixOf, List.cons_append, Bool.and_eq_true] at h ⊢
          exact ⟨h.1, ih xs h.2⟩

theorem ampOk_append (rest b : List Char) (h : ampOk rest = true) :
    ampOk (rest ++ b) = true := by
  simp only [ampOk, Bool.or_eq_true] at h ⊢
  rcases h with ((((h | h) | h) | h) | h) <;>
    simp [isPrefixOf_append_right _ _ _ h]

theorem ampClean_append (a b : List Char) (ha : ampClean a = true)
    (hb : ampClean b = true) : ampClean (a ++ b) = true := by
  induction a with
  | nil => simpa using hb
  | cons c rest ih =>
      simp only [ampClean, Bool.and_eq_true] at ha
      by_cases hc : c = '&'
      · subst hc
        simp only [ampClean, List.cons_append, if_pos rfl, Bool.and_eq_true]
        simp only [if_pos rfl] at ha
        exact ⟨ampOk_append _ _ ha.1, ih ha.2⟩
      · simp only [ampClean, List.cons_append, if_neg hc, Bool.and_eq_true]
        exact ⟨trivial, ih ha.2⟩

/-- Each single escaped character is amp-clean. -/
theorem ampClean_escChar (c : Char) : ampClean (escChar c) = true := by
  by_cases h1 : c = '&'
  · subst h1; decide
  · by_cases h2 : c = '<'
    · subst h2; decide
    · by_cases h3 : c = '>'
      · subst h3; decide
      · by_cases h4 : c = '"'
        · subst h4; decide
        · by_cases h5 : c = '\''
          · subst h5; decide
          · simp [escChar, h1, h2, h3, h4, h5, ampClean, h1]

/-- The output of `escapeXml` always passes the raw-ampersand scan. -/
theorem ampClean_escapeXmlChars (s : List Char) : ampClean (escapeXmlChars s) = true := by
  induction s with
  | nil => rfl
  | cons c cs ih =>
      rw [escapeXmlChars_cons]
      exact ampClean_append _ _ (ampClean_escChar c) ih

/-! ## Substring search -/

/-- Does `s` contain `pat` as a contiguous subsequence? -/
def containsSeq (pat : List Char) : List Char → Bool
  | [] => pat.isEmpty
  | s@(_ :: rest) => pat.isPrefixOf s || containsSeq pat rest

theorem containsSeq_append_right (pat a b : List Char)
    (h : containsSeq pat b = true) : containsSeq pat (a ++ b) = true := by
  induction a with
  | nil => simpa using h
  | cons x xs ih => simp [containsSeq, ih]

theorem containsSeq_append_left (pat a b : List Char)
    (h : containsSeq pat a = true) : containsSeq pat (a ++ b) = true := by
  induction a with
  | nil =>
      cases pat with
      | nil => cases b <;> simp [containsSeq, List.isPrefixOf]
      | cons p ps => simp [containsSeq, List.isEmpty] at h
  | cons x xs ih =>
      simp only [containsSeq, Bool.or_eq_true, List.cons_append] at h ⊢
      rcases h with h | h
      · exact Or.inl (isPrefixOf_append_right _ _ _ h)
      · exact Or.inr (ih h)

/-- Substring containment on `String`s. -/
def sContains (s pat : String) : Bool := containsSeq pat.data s.data

/-! ## JS whitespace, line terminators, `trim`, `toLowerCase` -/

/-- Characters matched by the JS regex class `\s` (the common ones;
exotic Unicode spaces do not occur in the strings this code handles). -/
def isJsWs (c : Char) : Bool :=
  c = ' ' || c = '\t' || c = '\n' || c = '\r' || c = '\x0b' || c = '\x0c' ||
  c = '\u00A0'

/-- JS line terminators, which `.` (without the `s` flag) does not match. -/
def isLineTerm (c : Char) : Bool :=
  c = '\n' || c = '\r' || c = '\u2028' || c = '\u2029'

/-- `.*$` can consume a tail exactly when it contains no line terminator. -/
def noLineTerm (s : List Char) : Bool := s.all (fun c => !isLineTerm c)

/-- JS `String.prototype.trim()`. -/
def jsTrim (s : List Char) : List Char :=
  ((s.dropWhile isJsWs).reverse.dropWhile isJsWs).reverse

/-- `trim` on `String`s. -/
def jsTrimS (s : String) : String := ⟨jsTrim s.data⟩

/-- JS `toLowerCase()` (ASCII; the category keywords are all ASCII). -/
def jsToLower (s : String) : String := ⟨s.data.map Char.toLower⟩

/-! ## Condition and category mapping (ebayApi.js lines 157–226) -/

/-- `getEbayConditionID` (lines 157–170): fixed table, `"Like New"`
redirected to `"Very Good"`, default `"5000"` (Good). -/
def getEbayConditionID (condition : Option String) : String :=
  let condition := if condition = some "Like New" then some "Very Good" else condition
  match condition with
  | some "Very Good" => "4000"
  | some "Good" => "5000"
  | some "Acceptable" => "6000"
  | _ => "5000"

/-- `getEbayCategoryID` (lines 178–226): keyword-driven substring checks
over `(category || '').toLowerCase()` and the listing-type tag, in source
order, with final fallback `'377'`. -/
def getEbayCategoryID (category listingType : Option String) : String :=
  let nc := jsToLower (jsOr category "")
  if listingType = some "BOOK_ITEM" || listingType = some "BOOK_LOTS" ||
      sContains nc "book" then
    if sContains nc "fiction" || sContains nc "literature" || sContains nc "novel" then
      "377"
    else if sContains nc "non-fiction" || sContains nc "biography" ||
        sContains nc "history" then
      "29792"
    else if sContains nc "textbook" || sContains nc "education" then
      "172562"
    else if sContains nc "children" || sContains nc "kids" then
      "11450"
    else
      "377"
  else if listingType = some "CD_MUSIC" || sContains nc "music" || sContains nc "cd" then
    "176985"
  else if listingType = some "DVD_MOVIE" || sContains nc "dvd" || sContains nc "movie" then
    "617"
  else if listingType = some "VHS_LISTING" || sContains nc "vhs" then
    "309"
  else if sContains nc "electronic" || sContains nc "computer" || sContains nc "phone" then
    "58058"
  else if sContains nc "collectible" || sContains nc "vintage" then
    "1"
  else
    "377"

/-! ## Title-cleanup regexes used by the general builder's book enrichment
(ebayApi.js lines 282–297)

`title.replace(/:\s*.*$/i, '')` removes from the leftmost `:` whose tail
can be consumed as `\s*` then a terminator-free `.*$`; similarly for
`/\s*by\s+.*$/i` and `/\s*-\s*.*$/i`.  `title.match(/by\s+([^-]+)/i)`
captures, after the leftmost case-insensitive `by` followed by at least
one whitespace character, the maximal run without `-` (backtracking one
whitespace character into the capture when the greedy `\s+` would leave
the capture empty). -/

/-- Can `\s*.*$` consume `t`?  Dropping the maximal whitespace prefix is
the most permissive split, so this holds exactly when the remainder after
the leading whitespace has no line terminator. -/
def wsDotTail (t : List Char) : Bool := noLineTerm (t.dropWhile isJsWs)

/-- One step of `replace(/:\s*.*$/i, '')`: cut at the leftmost matching `:`. -/
def stripColonAux : List Char → List Char
  | [] => []
  | c :: rest => if c = ':' && wsDotTail rest then [] else c :: stripColonAux rest

/-- Does `by\s+.*$` (case-insensitive) match at the head of `t`? -/
def byHere (t : List Char) : Bool :=
  match t with
  | b :: y :: u =>
      (b = 'b' || b = 'B') && (y = 'y' || y = 'Y') &&
      (match u with
       | [] => false
       | c :: _ => isJsWs c && noLineTerm (u.dropWhile isJsWs))
  | _ => false

/-- Does `\s*by\s+.*$` match starting at the head of `t`? -/
def wsThenBy : List Char → Bool
  | [] => false
  | c :: rest => byHere (c :: rest) || (isJsWs c && wsThenBy rest)

/-- `replace(/\s*by\s+.*$/i, '')`: cut at the leftmost match. -/
def stripByAux : List Char → List Char
  | [] => []
  | c :: rest => if wsThenBy (c :: rest) then [] else c :: stripByAux rest

/-- Does `-\s*.*$` match at the head of `t`? -/
def dashHere (t : List Char) : Bool :=
  match t with
  | c :: u => c = '-' && noLineTerm (u.dropWhile isJsWs)
  | [] => false

/-- Does `\s*-\s*.*$` match starting at the head of `t`? -/
def wsThenDash : List Char → Bool
  | [] => false
  | c :: rest => dashHere (c :: rest) || (isJsWs c && wsThenDash rest)

/-- `replace(/\s*-\s*.*$/i, '')`: cut at the leftmost match. -/
def stripDashAux : List Char → List Char
  | [] => []
  | c :: rest => if wsThenDash (c :: rest) then [] else c :: stripDashAux rest

/-- Lines 279–284: strip `": subtitle"`, `" by author"`, `" - description"`
in that order, trimming after each step. -/
def cleanBookTitle (title : String) : String :=
  let t1 := jsTrimS ⟨stripColonAux title.data⟩
  let t2 := jsTrimS ⟨stripByAux t1.data⟩
  jsTrimS ⟨stripDashAux t2.data⟩

/-- The capture of `([^-]+)` after `by` at the current position, given the
text `u` that follows `by`; `none` when the match attempt fails here. -/
def authorCapture (u : List Char) : Option (List Char) :=
  let w := (u.takeWhile isJsWs).length
  if w = 0 then none
  else
    let capAtW := (u.drop w).takeWhile (fun c => c ≠ '-')
    if capAtW ≠ [] then some capAtW
    else if 2 ≤ w then some ((u.drop (w - 1)).takeWhile (fun c => c ≠ '-'))
    else none

/-- Scan for the leftmost `by\s+([^-]+)` match (case-insensitive). -/
def authorScan : List Char → Option (List Char)
  | [] => none
  | b :: rest =>
      if b = 'b' || b = 'B' then
        match rest with
        | y :: u =>
            if y = 'y' || y = 'Y' then
              match authorCapture u with
              | some cap => some cap
              | none => authorScan rest
            else authorScan rest
        | [] => none
      else authorScan rest

/-- `title.match(/by\s+([^-]+)/i)` followed by `[1].trim()` (line 292–294). -/
def authorFromTitle (title : String) : Option String :=
  (authorScan title.data).map (fun cap => jsTrimS ⟨cap⟩)

/-! ## The general XML request builder (`buildEbayXMLRequest`,
ebayApi.js lines 249–381) -/

/-- A listing object as received by `buildEbayXMLRequest`.  The
`quantity` field may be carried by the caller's draft but is never read
by the general builder (the template hard-codes `<Quantity>1</Quantity>`). -/
structure Listing where
  title : String
  description : Option String
  price : String
  condition : Option String
  category : Option String
  listingType : Option String
  itemSpecifics : List (String × String)
  quantity : Option String
  deriving DecidableEq, Repr

/-- JS `Array.prototype.join('')` (plain concatenation). -/
def joinStr (l : List String) : String := l.foldr (fun a b => a ++ b) ""

/-- Spread-merge `{...a, ...b}`: insert the bindings of `b` into `a`. -/
def objAssign (a b : List (String × String)) : List (String × String) :=
  b.foldl (fun acc kv => objSet kv.1 kv.2 acc) a

/-- Lines 255–263: the photo gallery block, omitted when no URLs. -/
def pictureDetailsXmlOf (photoUrls : List String) : String :=
  if photoUrls.length > 0 then
    joinStr ["\n      <PictureDetails>\n        ",
      joinStr (photoUrls.map (fun url =>
        "<PictureURL>" ++ escapeXml url ++ "</PictureURL>")),
      "\n        <GalleryType>Gallery</GalleryType>\n      </PictureDetails>\n    "]
  else ""

/-- Lines 269–312: starting from a spread copy of `listing.itemSpecifics`,
add required book specifics when the resolved category is a book category,
using OpenAI-provided values when present (JS-truthy) and title-derived
or literal fallbacks otherwise. -/
def generalEnrich (title : String) (specs : List (String × String))
    (categoryID : String) : List (String × String) :=
  if categoryID = "377" || categoryID = "29792" || categoryID = "11450" ||
      categoryID = "172562" then
    let s1 := if jsTruthy (objGet "Book Title" specs) then specs
      else objSet "Book Title" (cleanBookTitle title) specs
    let s2 := if jsTruthy (objGet "Author" s1) then s1
      else match authorFromTitle title with
        | some a => objSet "Author" a s1
        | none => objSet "Author" "Unknown" s1
    let s3 := if jsTruthy (objGet "Format" s2) || jsTruthy (objGet "format" s2) then s2
      else objSet "Format" "Paperback" s2
    let s4 := if jsTruthy (objGet "Language" s3) || jsTruthy (objGet "language" s3) then s3
      else objSet "Language" "English" s3
    if jsTruthy (objGet "Book Series" s4) then s4
      else objSet "Book Series" "N/A" s4
  else specs

/-- Lines 314–331: one `NameValueList` per entry whose value is truthy
with a non-empty trim; both name and value are XML-escaped; the block is
omitted entirely when nothing survives the filter. -/
def itemSpecificsXmlOf (allSpecifics : List (String × String)) : String :=
  if allSpecifics.length > 0 then
    let specifics := joinStr ((allSpecifics.filter
        (fun kv => jsTrimS kv.2 ≠ "")).map (fun kv =>
      joinStr ["\n        <NameValueList>\n          <Name>", escapeXml kv.1,
        "</Name>\n          <Value>", escapeXml kv.2,
        "</Value>\n        </NameValueList>\n      "]))
    if specifics ≠ "" then
      joinStr ["\n        <ItemSpecifics>\n          ", specifics,
        "\n        </ItemSpecifics>\n      "]
    else ""
  else ""

/-- `buildEbayXMLRequest(listing, photoUrls)` (lines 249–381), with the
`process.env.EBAY_USER_TOKEN` credential passed explicitly.  The template
is the source's template literal: `Title` is `escapeXml`-ed, the
description (`listing.description || 'No description provided'`) is
interpolated RAW inside a CDATA section, and `<Quantity>1</Quantity>` is
hard-coded. -/
def buildEbayXMLRequest (token : Option String) (listing : Listing)
    (photoUrls : List String) : String :=
  let conditionID := getEbayConditionID listing.condition
  let categoryID := getEbayCategoryID listing.category listing.listingType
  let pictureDetailsXml := pictureDetailsXmlOf photoUrls
  let allSpecifics := generalEnrich listing.title listing.itemSpecifics categoryID
  let itemSpecificsXml := itemSpecificsXmlOf allSpecifics
  joinStr ["<?xml version=\"1.0\" encoding=\"utf-8\"?>\n    <AddItemRequest xmlns=\"urn:ebay:apis:eBLBaseComponents\">\n      <RequesterCredentials>\n        <eBayAuthToken>",
    jsInterp token,
    "</eBayAuthToken>\n      </RequesterCredentials>\n      <Item>\n        <Title>",
    escapeXml listing.title,
    "</Title>\n        <Description><![CDATA[",
    jsOr listing.description "No description provided",
    "]]></Description>\n        <PrimaryCategory>\n          <CategoryID>",
    categoryID,
    "</CategoryID>\n        </PrimaryCategory>\n        <StartPrice>",
    listing.price,
    "</StartPrice>\n        <CategoryMappingAllowed>true</CategoryMappingAllowed>\n        <Country>US</Country>\n        <Currency>USD</Currency>\n        <DispatchTimeMax>3</DispatchTimeMax>\n        <ListingDuration>GTC</ListingDuration>\n        <ListingType>FixedPriceItem</ListingType>\n        <PostalCode>10001</PostalCode>\n        ",
    "<Quantity>1</Quantity>",
    "\n        <ShippingPackageDetails>\n          <WeightMajor>1</WeightMajor>\n          <WeightMinor>0</WeightMinor>\n          <MeasurementUnit>English</MeasurementUnit>\n          <PackageDepth>6</PackageDepth>\n          <PackageLength>9</PackageLength>\n          <PackageWidth>1</PackageWidth>\n        </ShippingPackageDetails>\n        <SellerProfiles>\n          <SellerPaymentProfile>\n            <PaymentProfileName>eBay Payments</PaymentProfileName>\n          </SellerPaymentProfile>\n          <SellerShippingProfile>\n            <ShippingProfileName>FREE SHIPPING CURRENT July 14th 2022 Copy</ShippingProfileName>\n          </SellerShippingProfile>\n          <SellerReturnProfile>\n            <ReturnProfileID>230502251026</ReturnProfileID>\n          </SellerReturnProfile>\n        </SellerProfiles>\n        <Site>US</Site>\n        <ConditionID>",
    conditionID,
    "</ConditionID>\n        ",
    pictureDetailsXml,
    "\n        ",
    itemSpecificsXml,
    "\n      </Item>\n      <WarningLevel>High</WarningLevel>\n    </AddItemRequest>"]

/-! ## The book XML request builder (`buildEbayBookXMLRequest`,
ebayApi.js lines 530–650) -/

/-- A book listing object as received by `buildEbayBookXMLRequest`. -/
structure BookListing where
  title : String
  description : Option String
  price : String
  condition : Option String
  category : Option String
  item_specifics : List (String × String)
  quantity : Option String
  deriving DecidableEq, Repr

/-- Lines 550–559: the fixed required key set with `||` fallbacks. -/
def requiredBookSpecifics (b : BookListing) : List (String × String) :=
  let bs := b.item_specifics
  [("Book Title", jsOr (objGet "Book Title" bs) b.title),
   ("Author", jsOr (objGet "Author" bs) "Unknown"),
   ("Format", jsOr (objGet "Format" bs) "Hardcover"),
   ("Language", jsOr (objGet "Language" bs) "English"),
   ("Topic", jsOr (objGet "Topic" bs) "General"),
   ("Publisher", jsOr (objGet "Publisher" bs) ""),
   ("Publication Year", jsOr (objGet "Publication Year" bs) ""),
   ("ISBN", jsOr (objGet "ISBN" bs) "")]

/-- Lines 562–568: the optional key set with `||` fallbacks. -/
def optionalBookSpecifics (b : BookListing) : List (String × String) :=
  let bs := b.item_specifics
  [("Edition", jsOr (objGet "Edition" bs) ""),
   ("Series", jsOr (objGet "Series" bs) ""),
   ("Reading Level", jsOr (objGet "Reading Level" bs) "Adult"),
   ("Number of Pages", jsOr (objGet "Number of Pages" bs) ""),
   ("Special Features", jsOr (objGet "Special Features" bs) "")]

/-- Line 571: `{ ...requiredBookSpecifics, ...optionalBookSpecifics }`. -/
def bookAllSpecifics (b : BookListing) : List (String × String) :=
  objAssign (requiredBookSpecifics b) (optionalBookSpecifics b)

/-- Lines 574–581: entries surviving the non-empty-trim filter. -/
def bookSpecificItems (b : BookListing) : String :=
  joinStr (((bookAllSpecifics b).filter
      (fun kv => jsTrimS kv.2 ≠ "")).map (fun kv =>
    joinStr ["\n      <NameValueList>\n        <Name>", escapeXml kv.1,
      "</Name>\n        <Value>", escapeXml kv.2,
      "</Value>\n      </NameValueList>\n    "]))

/-- Lines 583–589. -/
def bookItemSpecificsXml (b : BookListing) : String :=
  if bookSpecificItems b ≠ "" then
    joinStr ["\n      <ItemSpecifics>\n        ", bookSpecificItems b,
      "\n      </ItemSpecifics>\n    "]
  else ""

/-- Lines 592–607: fixed Media-Mail shipping block. -/
def bookShippingXml : String :=
  "\n    <ShippingDetails>\n      <ShippingType>Flat</ShippingType>\n      <ShippingServiceOptions>\n        <ShippingServicePriority>1</ShippingServicePriority>\n        <ShippingService>USPSMedia</ShippingService>\n        <ShippingServiceCost>0.00</ShippingServiceCost>\n        <FreeShipping>true</FreeShipping>\n      </ShippingServiceOptions>\n      <ShippingServiceOptions>\n        <ShippingServicePriority>2</ShippingServicePriority>\n        <ShippingService>USPSPriority</ShippingService>\n        <ShippingServiceCost>8.99</ShippingServiceCost>\n      </ShippingServiceOptions>\n    </ShippingDetails>\n  "

/-- The `xmlRequest` template literal of lines 609–638 — the string the
function builds before it attempts (and fails) to log. -/
def buildEbayBookXmlString (token : Option String) (b : BookListing)
    (photoUrls : List String) : String :=
  let conditionID := getEbayConditionID b.condition
  let categoryID := getEbayCategoryID b.category (some "BOOK_ITEM")
  let pictureDetailsXml := pictureDetailsXmlOf photoUrls
  joinStr ["<?xml version=\"1.0\" encoding=\"utf-8\"?>\n<AddItemRequest xmlns=\"urn:ebay:apis:eBLBaseComponents\">\n  <RequesterCredentials>\n    <eBayAuthToken>",
    jsInterp token,
    "</eBayAuthToken>\n  </RequesterCredentials>\n  <Item>\n    <Title>",
    escapeXml b.title,
    "</Title>\n    <Description><![CDATA[",
    jsOr b.description "",
    "]]></Description>\n    <PrimaryCategory>\n      <CategoryID>",
    categoryID,
    "</CategoryID>\n    </PrimaryCategory>\n    <ConditionID>",
    conditionID,
    "</ConditionID>\n    <StartPrice>",
    b.price,
    "</StartPrice>\n    <Currency>USD</Currency>\n    <Country>US</Country>\n    <Location>United States</Location>\n    <ListingType>FixedPriceItem</ListingType>\n    <ListingDuration>GTC</ListingDuration>\n    ",
    "<Quantity>" ++ (jsOr b.quantity "1" ++ "</Quantity>"),
    "\n    ",
    pictureDetailsXml,
    "\n    ",
    bookItemSpecificsXml b,
    "\n    ",
    bookShippingXml,
    "\n    <ReturnPolicy>\n      <ReturnsAcceptedOption>ReturnsAccepted</ReturnsAcceptedOption>\n      <RefundOption>MoneyBack</RefundOption>\n      <ReturnsWithinOption>Days_30</ReturnsWithinOption>\n      <ShippingCostPaidByOption>Buyer</ShippingCostPaidByOption>\n    </ReturnPolicy>\n  </Item>\n</AddItemRequest>"]

/-- `buildEbayBookXMLRequest` (lines 530–650).  After constructing
`xmlRequest`, line 640's `console.log` argument object evaluates
`!!itemSpecifics`; no variable named `itemSpecifics` is declared in the
function or the module (only `itemSpecificsXml` is), so evaluating the
log argument raises `ReferenceError: itemSpecifics is not defined`
before the `return xmlRequest` at line 649 can execute. -/
def buildEbayBookXMLRequest (token : Option String) (b : BookListing)
    (photoUrls : List String) : Except String String :=
  let _xmlRequest := buildEbayBookXmlString token b photoUrls
  Except.error "itemSpecifics is not defined"

/-! ## Amp-scan and decomposition lemmas on `String` -/

/-- The spec's raw-ampersand scan, on `String`s. -/
def ampCleanS (s : String) : Bool := ampClean s.data

theorem ampCleanS_append (a b : String) (ha : ampCleanS a = true)
    (hb : ampCleanS b = true) : ampCleanS (a ++ b) = true := by
  unfold ampCleanS at *
  rw [String.data_append]
  exact ampClean_append _ _ ha hb

theorem joinStr_cons (a : String) (l : List String) :
    joinStr (a :: l) = a ++ joinStr l := rfl

theorem ampCleanS_joinStr (ls : List String)
    (h : ∀ x ∈ ls, ampCleanS x = true) : ampCleanS (joinStr ls) = true := by
  induction ls with
  | nil => decide
  | cons y rest ih =>
      rw [joinStr_cons]
      exact ampCleanS_append _ _ (h y (by simp))
        (ih (fun x hx => h x (by simp [hx])))

theorem ampCleanS_escapeXml (s : String) : ampCleanS (escapeXml s) = true :=
  ampClean_escapeXmlChars s.data

theorem joinStr_decomp (l1 l2 : List String) (x : String) :
    joinStr (l1 ++ x :: l2) = joinStr l1 ++ (x ++ joinStr l2) := by
  induction l1 with
  | nil => rfl
  | cons a l ih =>
      rw [List.cons_append, joinStr_cons, ih, joinStr_cons, String.append_assoc]

/-- Any element of a concatenation splits it. -/
theorem joinStr_mem_decomp (ls : List String) (x : String) (hx : x ∈ ls) :
    ∃ pre post, joinStr ls = pre ++ (x ++ post) := by
  induction ls with
  | nil => cases hx
  | cons y rest ih =>
      cases hx with
      | head => exact ⟨"", joinStr rest, rfl⟩
      | tail _ hx =>
          obtain ⟨pre, post, hp⟩ := ih hx
          exact ⟨y ++ pre, post, by rw [joinStr_cons, hp, String.append_assoc]⟩

/-- All condition codes pass the amp scan. -/
theorem ampCleanS_conditionID (c : Option String) :
    ampCleanS (getEbayConditionID c) = true := by
  unfold getEbayConditionID
  dsimp only
  split <;> decide

/-- All category codes pass the amp scan. -/
theorem ampCleanS_categoryID (c t : Option String) :
    ampCleanS (getEbayCategoryID c t) = true := by
  unfold getEbayCategoryID
  dsimp only
  split_ifs <;> decide

theorem ampCleanS_pictureDetailsXmlOf (urls : List String) :
    ampCleanS (pictureDetailsXmlOf urls) = true := by
  unfold pictureDetailsXmlOf
  split
  · apply ampCleanS_joinStr
    intro x hx
    simp only [List.mem_cons, List.not_mem_nil, or_false] at hx
    rcases hx with rfl | rfl | rfl
    · decide
    · apply ampCleanS_joinStr
      intro y hy
      simp only [List.mem_map] at hy
      obtain ⟨u, _, rfl⟩ := hy
      exact ampCleanS_append _ _
        (ampCleanS_append _ _ (by decide) (ampCleanS_escapeXml u)) (by decide)
    · decide
  · decide

theorem ampCleanS_itemSpecificsXmlOf (specs : List (String × String)) :
    ampCleanS (itemSpecificsXmlOf specs) = true := by
  unfold itemSpecificsXmlOf
  dsimp only
  split
  · split
    · apply ampCleanS_joinStr
      intro x hx
      simp only [List.mem_cons, List.not_mem_nil, or_false] at hx
      rcases hx with rfl | rfl | rfl
      · decide
      · apply ampCleanS_joinStr
        intro y hy
        simp only [List.mem_map] at hy
        obtain ⟨kv, _, rfl⟩ := hy
        apply ampCleanS_joinStr
        intro z hz
        simp only [List.mem_cons, List.not_mem_nil, or_false] at hz
        rcases hz with rfl | rfl | rfl | rfl | rfl
        · decide
        · exact ampCleanS_escapeXml kv.1
        · decide
        · exact ampCleanS_escapeXml kv.2
        · decide
      · decide
    · decide
  · decide

/-! ## Claim C4 -/

/-- C4 (amended): in `buildEbayXMLRequest`, the title, photo URLs and
item-specific names/values are XML-escaped, so whenever the raw-interpolated
fields (credential, price, and the description — which is embedded raw
inside a CDATA section) contain no raw ampersand, the whole output passes
the spec's scan `&(?!amp;|lt;|gt;|quot;|#39;)`, for every title, category,
condition, item-specifics map and photo-URL list. -/
theorem C4_escaping_amended (token : Option String) (l : Listing)
    (urls : List String)
    (htok : ampCleanS (jsInterp token) = true)
    (hprice : ampCleanS l.price = true)
    (hdesc : ampCleanS (jsOr l.description "No description provided") = true) :
    ampCleanS (buildEbayXMLRequest token l urls) = true := by
  unfold buildEbayXMLRequest
  dsimp only
  apply ampCleanS_joinStr
  intro x hx
  simp only [List.mem_cons, List.not_mem_nil, or_false] at hx
  rcases hx with rfl | rfl | rfl | rfl | rfl | rfl | rfl | rfl | rfl | rfl |
    rfl | rfl | rfl | rfl | rfl | rfl | rfl | rfl | rfl
  · decide
  · exact htok
  · decide
  · exact ampCleanS_escapeXml l.title
  · decide
  · exact hdesc
  · decide
  · exact ampCleanS_categoryID l.category l.listingType
  · decide
  · exact hprice
  · decide
  · decide
  · decide
  · exact ampCleanS_conditionID l.condition
  · decide
  · exact ampCleanS_pictureDetailsXmlOf urls
  · decide
  · exact ampCleanS_itemSpecificsXmlOf _
  · decide

/-- Concrete input for the C4 witness: every raw-interpolated field is
amp-free. -/
def listingWitnessC4 : Listing :=
  { title := "Nice <Gadget> & Co", description := some "Solid item",
    price := "5", condition := some "Good", category := some "electronics",
    listingType := some "GENERAL_LISTING",
    itemSpecifics := [("Brand", "Acme & Sons")], quantity := none }

/-- Witness instantiating `C4_escaping_amended` at a concrete listing. -/
theorem C4_escaping_amended_witness :
    ampCleanS (jsInterp (some "TOKEN")) = true ∧
    ampCleanS listingWitnessC4.price = true ∧
    ampCleanS (jsOr listingWitnessC4.description "No description provided") = true ∧
    ampCleanS (buildEbayXMLRequest (some "TOKEN") listingWitnessC4
      ["https://h.example/a.jpg"]) = true :=
  ⟨by decide, by decide, by decide,
    C4_escaping_amended (some "TOKEN") listingWitnessC4 ["https://h.example/a.jpg"]
      (by decide) (by decide) (by decide)⟩

/-- Concrete input refuting C4 as stated: the description is interpolated
raw inside the CDATA section. -/
def listingCounterC4 : Listing :=
  { title := "Widget", description := some "Tom & Jerry", price := "5",
    condition := some "Good", category := some "electronics",
    listingType := some "GENERAL_LISTING", itemSpecifics := [],
    quantity := none }

/-- C4 (counterexample): with description `"Tom & Jerry"`, the output of
`buildEbayXMLRequest` contains that text verbatim, and fails the spec's
raw-ampersand scan — a raw unescaped `&` originating from the
user-supplied description. -/
theorem C4_escaping_counterexample :
    ampCleanS (buildEbayXMLRequest (some "TOKEN") listingCounterC4
      ["https://h.example/a.jpg"]) = false ∧
    sContains (buildEbayXMLRequest (some "TOKEN") listingCounterC4
      ["https://h.example/a.jpg"]) "Tom & Jerry" = true := by
  constructor
  · decide
  · decide

/-! ## Claim C5 -/

/-- A representative book listing for exercising `buildEbayBookXMLRequest`. -/
def bookInputC5 : BookListing :=
  { title := "A Book", description := some "desc", price := "9.99",
    condition := some "Good", category := some "Books > Fiction",
    item_specifics := [], quantity := none }

/-- C5 (code bug): `buildEbayBookXMLRequest` never returns the XML string —
evaluating the final log's `!!itemSpecifics` raises `ReferenceError` first —
while the specifics block it builds on the way does follow the claimed rule:
the considered keys are exactly the fixed required set plus the optional
set, and exactly the keys with non-empty trimmed values survive the filter
(at this input: the five keys with non-empty defaults plus Book Title). -/
theorem C5_book_builder_reference_error :
    buildEbayBookXMLRequest (some "TOKEN") bookInputC5 ["https://h.example/a.jpg"]
        = Except.error "itemSpecifics is not defined" ∧
    bookAllSpecifics bookInputC5 =
      [("Book Title", "A Book"), ("Author", "Unknown"), ("Format", "Hardcover"),
       ("Language", "English"), ("Topic", "General"), ("Publisher", ""),
       ("Publication Year", ""), ("ISBN", ""), ("Edition", ""), ("Series", ""),
       ("Reading Level", "Adult"), ("Number of Pages", ""), ("Special Features", "")] ∧
    ((bookAllSpecifics bookInputC5).filter
        (fun kv => jsTrimS kv.2 ≠ "")).map Prod.fst =
      ["Book Title", "Author", "Format", "Language", "Topic", "Reading Level"] := by
  refine ⟨rfl, by decide, by decide⟩

/-! ## Claim C9 -/

/-- Every keyword inspected by `getEbayCategoryID`, in source order. -/
def categoryKeywords : List String :=
  ["book", "fiction", "literature", "novel", "non-fiction", "biography",
   "history", "textbook", "education", "children", "kids", "music", "cd",
   "dvd", "movie", "vhs", "electronic", "computer", "phone", "collectible",
   "vintage"]

/-- C9: when the (lowercased) category text contains none of the recognized
keywords and the listing type is none of the book/CD/DVD/VHS tags, the
mapper falls through every branch to `'377'` — the same code as the books
Fiction & Literature default (e.g. the plain `"book"` category). -/
theorem C9_unrecognized_category_books_fallback
    (category listingType : Option String)
    (hkw : ∀ kw ∈ categoryKeywords,
      sContains (jsToLower (jsOr category "")) kw = false)
    (hlt : listingType ∉ ([some "BOOK_ITEM", some "BOOK_LOTS", some "CD_MUSIC",
      some "DVD_MOVIE", some "VHS_LISTING"] : List (Option String))) :
    getEbayCategoryID category listingType = "377" ∧
    getEbayCategoryID (some "book") none = "377" := by
  have hb := hkw "book" (by simp [categoryKeywords])
  have hmus := hkw "music" (by simp [categoryKeywords])
  have hcd := hkw "cd" (by simp [categoryKeywords])
  have hdvd := hkw "dvd" (by simp [categoryKeywords])
  have hmov := hkw "movie" (by simp [categoryKeywords])
  have hvhs := hkw "vhs" (by simp [categoryKeywords])
  have hel := hkw "electronic" (by simp [categoryKeywords])
  have hco := hkw "computer" (by simp [categoryKeywords])
  have hph := hkw "phone" (by simp [categoryKeywords])
  have hcl := hkw "collectible" (by simp [categoryKeywords])
  have hvg := hkw "vintage" (by simp [categoryKeywords])
  simp only [List.mem_cons, List.not_mem_nil, or_false, not_or] at hlt
  obtain ⟨l1, l2, l3, l4, l5⟩ := hlt
  refine ⟨?_, by decide⟩
  unfold getEbayCategoryID
  simp [hb, hmus, hcd, hdvd, hmov, hvhs, hel, hco, hph, hcl, hvg,
    l1, l2, l3, l4, l5]

/-- Witness instantiating C9 at a concrete unrecognized category. -/
theorem C9_unrecognized_category_books_fallback_witness :
    (∀ kw ∈ categoryKeywords,
      sContains (jsToLower (jsOr (some "gadget thing") "")) kw = false) ∧
    (some "GENERAL_LISTING" ∉ ([some "BOOK_ITEM", some "BOOK_LOTS",
      some "CD_MUSIC", some "DVD_MOVIE", some "VHS_LISTING"] :
      List (Option String))) ∧
    getEbayCategoryID (some "gadget thing") (some "GENERAL_LISTING") = "377" :=
  ⟨by decide, by decide,
    (C9_unrecognized_category_books_fallback (some "gadget thing")
      (some "GENERAL_LISTING") (by decide) (by decide)).1⟩

/-! ## Claim C10 -/

/-- C10: the general builder hard-codes `<Quantity>1</Quantity>` (for every
listing and URL list), and its output does not depend on the listing's
`quantity` field at all; only the book template reads `quantity`, with
`|| 1` as the default. -/
theorem C10_quantity_policy (token : Option String) (l : Listing)
    (q q' : Option String) (urls : List String) (b : BookListing) :
    (∃ pre post, buildEbayXMLRequest token l urls =
      pre ++ ("<Quantity>1</Quantity>" ++ post)) ∧
    buildEbayXMLRequest token { l with quantity := q } urls =
      buildEbayXMLRequest token { l with quantity := q' } urls ∧
    (∃ pre post, buildEbayBookXmlString token b urls =
      pre ++ (("<Quantity>" ++ (jsOr b.quantity "1" ++ "</Quantity>")) ++ post)) := by
  refine ⟨?_, ?_, ?_⟩
  · unfold buildEbayXMLRequest
    dsimp only
    apply joinStr_mem_decomp
    repeat first | exact List.Mem.head _ | apply List.Mem.tail
  · cases l
    rfl
  · unfold buildEbayBookXmlString
    dsimp only
    apply joinStr_mem_decomp
    repeat first | exact List.Mem.head _ | apply List.Mem.tail

/-! ## JSON values and `JSON.parse`

`parseAndCleanResponse` (new-server.js / server.js lines 97–129) uses
`JSON.parse`.  The parser below follows the JSON grammar: values are
null/true/false, numbers, strings, arrays, objects; `JSON.parse` rejects
trailing non-whitespace.  Numeric literals are kept as their source
lexeme (JS float semantics are not needed by any claim); `\uXXXX`
escapes are decoded without surrogate pairing (no input below uses one). -/

inductive JsValue where
  | jnull
  | jbool (b : Bool)
  | jnum (lexeme : String)
  | jstr (s : String)
  | jarr (elems : List JsValue)
  | jobj (fields : List (String × JsValue))
  deriving Repr

/-- JSON insignificant whitespace. -/
def skipJsonWs (s : List Char) : List Char :=
  s.dropWhile (fun c => c = ' ' || c = '\t' || c = '\n' || c = '\r')

/-- Hexadecimal digit value (by code point: 0-9, a-f, A-F). -/
def hexVal (c : Char) : Option Nat :=
  let n := c.toNat
  if 48 ≤ n ∧ n ≤ 57 then some (n - 48)
  else if 97 ≤ n ∧ n ≤ 102 then some (n - 87)
  else if 65 ≤ n ∧ n ≤ 70 then some (n - 55)
  else none

/-- Body of a JSON string after the opening quote: returns the decoded
characters and the input after the closing quote. -/
def jsonStringBody : List Char → Option (List Char × List Char)
  | [] => none
  | '"' :: rest => some ([], rest)
  | '\\' :: e :: rest =>
      match e with
      | '"' => (jsonStringBody rest).map (fun p => ('"' :: p.1, p.2))
      | '\\' => (jsonStringBody rest).map (fun p => ('\\' :: p.1, p.2))
      | '/' => (jsonStringBody rest).map (fun p => ('/' :: p.1, p.2))
      | 'b' => (jsonStringBody rest).map (fun p => ('\x08' :: p.1, p.2))
      | 'f' => (jsonStringBody rest).map (fun p => ('\x0c' :: p.1, p.2))
      | 'n' => (jsonStringBody rest).map (fun p => ('\n' :: p.1, p.2))
      | 'r' => (jsonStringBody rest).map (fun p => ('\r' :: p.1, p.2))
      | 't' => (jsonStringBody rest).map (fun p => ('\t' :: p.1, p.2))
      | 'u' =>
          match rest with
          | h1 :: h2 :: h3 :: h4 :: rest2 =>
              match hexVal h1, hexVal h2, hexVal h3, hexVal h4 with
              | some a, some b, some c, some d =>
                  (jsonStringBody rest2).map (fun p =>
                    (Char.ofNat (((a * 16 + b) * 16 + c) * 16 + d) :: p.1, p.2))
              | _, _, _, _ => none
          | _ => none
      | _ => none
  | c :: rest =>
      if c.toNat < 32 then none
      else (jsonStringBody rest).map (fun p => (c :: p.1, p.2))

/-- A JSON numeric literal: sign, integer part (no leading zeros),
optional fraction, optional exponent.  Returns the lexeme and the rest. -/
def jsonNumberLexeme (s : List Char) : Option (List Char × List Char) :=
  let (sign, s1) := match s with
    | '-' :: r => (['-'], r)
    | _ => ([], s)
  match s1 with
  | [] => none
  | c :: cs =>
      if c = '0' then
        let (ip, r1) := (['0'], cs)
        jsonNumberTail sign ip r1
      else if c.isDigit then
        let ip := c :: cs.takeWhile Char.isDigit
        let r1 := cs.dropWhile Char.isDigit
        jsonNumberTail sign ip r1
      else none
where
  /-- Optional fraction and exponent after the integer part. -/
  jsonNumberTail (sign ip r1 : List Char) : Option (List Char × List Char) :=
    let (fp, r2) := match r1 with
      | '.' :: d :: ds =>
          if d.isDigit then
            ('.' :: d :: ds.takeWhile Char.isDigit, ds.dropWhile Char.isDigit)
          else ([], r1)
      | _ => ([], r1)
    if fp = [] && (match r1 with | '.' :: _ => true | _ => false) then none
    else
      match r2 with
      | e :: es =>
          if e = 'e' || e = 'E' then
            let (es1, esign) := match es with
              | '+' :: t => (t, ['+'])
              | '-' :: t => (t, ['-'])
              | _ => (es, [])
            let ed := es1.takeWhile Char.isDigit
            if ed = [] then none
            else some (sign ++ ip ++ fp ++ e :: esign ++ ed,
              es1.dropWhile Char.isDigit)
          else some (sign ++ ip ++ fp, r2)
      | [] => some (sign ++ ip ++ fp, r2)

/-- Parsing mode: a value, the members of an object (after `{` and at
least one member pending), or the elements of an array. -/
inductive JMode where
  | value
  | members (acc : List (String × JsValue))
  | elements (acc : List JsValue)

/-- Fuel-indexed JSON parser (single structural recursion on the fuel so
that concrete runs reduce in the kernel).  Returns the parsed value and
the unconsumed input. -/
def jparse : Nat → JMode → List Char → Option (JsValue × List Char)
  | 0, _, _ => none
  | fuel + 1, JMode.value, s =>
      let s := skipJsonWs s
      if "null".data.isPrefixOf s then some (.jnull, s.drop 4)
      else if "true".data.isPrefixOf s then some (.jbool true, s.drop 4)
      else if "false".data.isPrefixOf s then some (.jbool false, s.drop 5)
      else
        match s with
        | '"' :: rest => (jsonStringBody rest).map (fun p => (.jstr ⟨p.1⟩, p.2))
        | '{' :: rest =>
            (match skipJsonWs rest with
             | '}' :: r2 => some (.jobj [], r2)
             | r1 => jparse fuel (.members []) r1)
        | '[' :: rest =>
            (match skipJsonWs rest with
             | ']' :: r2 => some (.jarr [], r2)
             | r1 => jparse fuel (.elements []) r1)
        | _ => (jsonNumberLexeme s).map (fun p => (.jnum ⟨p.1⟩, p.2))
  | fuel + 1, JMode.members acc, s =>
      match skipJsonWs s with
      | '"' :: rest =>
          match jsonStringBody rest with
          | none => none
          | some (k, r1) =>
              match skipJsonWs r1 with
              | ':' :: r2 =>
                  match jparse fuel .value r2 with
                  | none => none
                  | some (v, r3) =>
                      match skipJsonWs r3 with
                      | ',' :: r4 => jparse fuel (.members (acc ++ [(⟨k⟩, v)])) r4
                      | '}' :: r4 => some (.jobj (acc ++ [(⟨k⟩, v)]), r4)
                      | _ => none
              | _ => none
      | _ => none
  | fuel + 1, JMode.elements acc, s =>
      match jparse fuel .value s with
      | none => none
      | some (v, r1) =>
          match skipJsonWs r1 with
          | ',' :: r2 => jparse fuel (.elements (acc ++ [v])) r2
          | ']' :: r2 => some (.jarr (acc ++ [v]), r2)
          | _ => none

/-- `JSON.parse`: parse one value and reject trailing non-whitespace. -/
def jsonParse (s : String) : Option JsValue :=
  match jparse (s.length + 1) .value s.data with
  | some (v, rest) => if skipJsonWs rest = [] then some v else none
  | none => none

/-! ## The response extractor (`parseAndCleanResponse`,
new-server.js / server.js lines 97–129) -/

/-- Outcome of the extractor: a parsed value, or a thrown `Error` whose
message is what the JS code throws. -/
inductive ExtractOutcome where
  | parsed (v : JsValue)
  | thrown (msg : String)
  deriving Repr

/-- Stand-in for the engine-specific `SyntaxError` message text produced
by `JSON.parse`; no claim depends on its wording. -/
def jsonSyntaxErrorMessage : String := "Unexpected token in JSON"

/-- The regex `/\{[\s\S]*\}/` (line 107): greedy, so it matches from the
first `{` to the last `}` when the last `}` comes after the first `{`,
and fails otherwise. -/
def braceSpan (s : List Char) : Option (List Char) :=
  match s.findIdx? (fun c => c = '{') with
  | none => none
  | some i =>
      match s.reverse.findIdx? (fun c => c = '}') with
      | none => none
      | some jr =>
          let j := s.length - 1 - jr
          if i < j then some ((s.drop i).take (j - i + 1)) else none

/-- `parseAndCleanResponse(aiResponse)`: the falsy/type guard, then the
brace-span regex FIRST — parsing the span when one exists (a failed
`JSON.parse` of the span propagates to the outer catch) — and only when
no span exists, `JSON.parse` of the whole trimmed input; every failure is
rethrown as `Failed to parse OpenAI response: ...`. -/
def parseAndCleanResponse (aiResponse : String) : ExtractOutcome :=
  if aiResponse = "" then
    .thrown "Failed to parse OpenAI response: Invalid response from OpenAI - not a string"
  else
    match braceSpan aiResponse.data with
    | some span =>
        match jsonParse ⟨span⟩ with
        | some v => .parsed v
        | none => .thrown ("Failed to parse OpenAI response: " ++ jsonSyntaxErrorMessage)
    | none =>
        match jsonParse (jsTrimS aiResponse) with
        | some v => .parsed v
        | none => .thrown "Failed to parse OpenAI response: No JSON found in response"

/-- Modelled from the spec (§4.1): first attempt to parse the trimmed
input as JSON directly; if that fails, parse the first-`{`-to-last-`}`
span; if both fail, signal `ParseError` with the original text preserved.
(Stated for the refinement comparison with `parseAndCleanResponse`.) -/
def specExtract (rawText : String) : ExtractOutcome :=
  match jsonParse (jsTrimS rawText) with
  | some v => .parsed v
  | none =>
      match braceSpan rawText.data with
      | some span =>
          match jsonParse ⟨span⟩ with
          | some v => .parsed v
          | none => .thrown ("ParseError: " ++ rawText)
      | none => .thrown ("ParseError: " ++ rawText)

/-- C6 (counterexample): on `"[1, \x7b\"a\": 1\x7d]"` — a valid JSON array —
the spec's algorithm returns the array, but the code's span-first
algorithm parses the inner `{"a": 1}` object instead; and the error
thrown on `"not json"` does not preserve the original text. -/
theorem C6_extractor_counterexample :
    parseAndCleanResponse "[1, \x7b\"a\": 1\x7d]" =
      .parsed (.jobj [("a", JsValue.jnum "1")]) ∧
    specExtract "[1, \x7b\"a\": 1\x7d]" =
      .parsed (.jarr [JsValue.jnum "1", .jobj [("a", JsValue.jnum "1")]]) ∧
    parseAndCleanResponse "[1, \x7b\"a\": 1\x7d]" ≠ specExtract "[1, \x7b\"a\": 1\x7d]" ∧
    parseAndCleanResponse "not json" =
      .thrown "Failed to parse OpenAI response: No JSON found in response" ∧
    sContains "Failed to parse OpenAI response: No JSON found in response"
      "not json" = false := by
  refine ⟨rfl, rfl, ?_, rfl, by decide⟩
  intro h
  rw [show parseAndCleanResponse "[1, \x7b\"a\": 1\x7d]" =
      ExtractOutcome.parsed (.jobj [("a", JsValue.jnum "1")]) from rfl,
    show specExtract "[1, \x7b\"a\": 1\x7d]" =
      ExtractOutcome.parsed (.jarr [JsValue.jnum "1",
        .jobj [("a", JsValue.jnum "1")]]) from rfl] at h
  simp at h

/-- C6 (amended): the extractor looks for a first-`{`-to-last-`}` span
FIRST and parses exactly that substring when one exists (not falling back
to a direct parse when the span fails); only when no span exists does it
parse the whole trimmed input, and the error it signals does not embed
the original text.  The spec's three examples hold as stated. -/
theorem C6_extractor_amended :
    parseAndCleanResponse "prefix text \x7b\"a\":1\x7d suffix" =
      .parsed (.jobj [("a", JsValue.jnum "1")]) ∧
    parseAndCleanResponse "\x7b\"a\":1\x7d" = .parsed (.jobj [("a", JsValue.jnum "1")]) ∧
    parseAndCleanResponse "not json" =
      .thrown "Failed to parse OpenAI response: No JSON found in response" ∧
    (∀ s : String, s ≠ "" → braceSpan s.data = none →
      parseAndCleanResponse s =
        (match jsonParse (jsTrimS s) with
         | some v => ExtractOutcome.parsed v
         | none => .thrown "Failed to parse OpenAI response: No JSON found in response")) ∧
    (∀ s : String, ∀ span : List Char, s ≠ "" → braceSpan s.data = some span →
      parseAndCleanResponse s =
        (match jsonParse ⟨span⟩ with
         | some v => ExtractOutcome.parsed v
         | none => .thrown ("Failed to parse OpenAI response: " ++
             jsonSyntaxErrorMessage))) := by
  refine ⟨rfl, rfl, rfl, ?_, ?_⟩
  · intro s hs hb
    unfold parseAndCleanResponse
    rw [if_neg hs, hb]
  · intro s span hs hb
    unfold parseAndCleanResponse
    rw [if_neg hs, hb]

/-- Witness instantiating the two conditional clauses of
`C6_extractor_amended` at concrete inputs. -/
theorem C6_extractor_amended_witness :
    (("not json" : String) ≠ "" ∧ braceSpan "not json".data = none ∧
      parseAndCleanResponse "not json" =
        (match jsonParse (jsTrimS "not json") with
         | some v => ExtractOutcome.parsed v
         | none => .thrown "Failed to parse OpenAI response: No JSON found in response")) ∧
    (("a{b}c" : String) ≠ "" ∧ braceSpan "a{b}c".data = some "{b}".data ∧
      parseAndCleanResponse "a{b}c" =
        (match jsonParse ⟨"{b}".data⟩ with
         | some v => ExtractOutcome.parsed v
         | none => .thrown ("Failed to parse OpenAI response: " ++
             jsonSyntaxErrorMessage))) :=
  ⟨⟨by decide, by rfl,
      (C6_extractor_amended.2.2.2.1) "not json" (by decide) (by rfl)⟩,
   ⟨by decide, by rfl,
      (C6_extractor_amended.2.2.2.2) "a{b}c" "{b}".data (by decide) (by rfl)⟩⟩

/-! ## The marketplace response parser (`parseEbayResponse`,
ebayApi.js lines 425–479) -/

/-- Lazy capture `(.*?)` up to the literal `close`, starting right after
the opening tag; stops at the shortest close; with `allowNl = false`
(no `/s` flag) the dot cannot cross a line terminator. -/
def lazyCapture (allowNl : Bool) (close : List Char) : List Char → Option (List Char)
  | [] => none
  | c :: rest =>
      if close.isPrefixOf (c :: rest) then some []
      else if allowNl || !isLineTerm c then
        (lazyCapture allowNl close rest).map (fun cap => c :: cap)
      else none

/-- Leftmost match of `open(.*?)close`: scan start positions left to
right; at each position where `open` is a prefix, lazily capture up to
`close`; a failed attempt moves the start one character right. -/
def findTagCapture (openT close : List Char) (allowNl : Bool) :
    List Char → Option (List Char)
  | [] => if openT = [] ∧ close = [] then some [] else none
  | s@(_ :: rest) =>
      match (if openT.isPrefixOf s then
          lazyCapture allowNl close (s.drop openT.length) else none) with
      | some cap => some cap
      | none => findTagCapture openT close allowNl rest

/-- `ack`: the `/<Ack>(.*?)<\/Ack>/` capture, or `'Unknown'` (lines 429,
434). -/
def ackOf (s : String) : String :=
  match findTagCapture "<Ack>".data "</Ack>".data false s.data with
  | some a => ⟨a⟩
  | none => "Unknown"

/-- The failure branch's error message (lines 454–461): the first
`<LongMessage>` capture (no `/s` flag) inside the first `<Errors>` block
(`/s` flag), or `'Unknown eBay error'`. -/
def longMsgOf (s : String) : String :=
  match findTagCapture "<Errors>".data "</Errors>".data true s.data with
  | some block =>
      match findTagCapture "<LongMessage>".data "</LongMessage>".data false block with
      | some m => ⟨m⟩
      | none => "Unknown eBay error"
  | none => "Unknown eBay error"

/-- The parsed marketplace result.  `insertionFeeLexeme` keeps the raw
`<InsertionFee currencyID="USD">` capture (the JS code applies
`parseFloat`, with `0` when absent — floating point, untouched by every
claim); fields absent from a JS branch are `none`. -/
structure EbayResult where
  success : Bool
  ack : String
  itemId : Option String
  ebayListingId : Option String
  url : Option String
  insertionFeeLexeme : Option String
  error : Option String
  message : String
  rawResponse : String
  deriving DecidableEq, Repr

/-- `parseEbayResponse(xmlResponse)` (lines 425–479).  The JS body is a
total sequence of regex matches and object literals, so the `catch`
branch (lines 471–478) is unreachable; `success` is `Ack ∈ {Success,
Warning}`, and both branches retain the raw response. -/
def parseEbayResponse (xmlResponse : String) : EbayResult :=
  let ack := ackOf xmlResponse
  let isSuccess := ack = "Success" ∨ ack = "Warning"
  if isSuccess then
    let itemId := (findTagCapture "<ItemID>".data "</ItemID>".data false
      xmlResponse.data).map (fun c => (⟨c⟩ : String))
    { success := true, ack := ack, itemId := itemId, ebayListingId := itemId,
      url := if jsTruthy itemId then
          some ("https://www.ebay.com/itm/" ++ jsInterp itemId) else none,
      insertionFeeLexeme := (findTagCapture
        "<InsertionFee currencyID=\"USD\">".data "</InsertionFee>".data false
        xmlResponse.data).map (fun c => (⟨c⟩ : String)),
      error := none,
      message := "Listing created successfully on eBay",
      rawResponse := xmlResponse }
  else
    let errorMessage := longMsgOf xmlResponse
    { success := false, ack := ack, itemId := none, ebayListingId := none,
      url := none, insertionFeeLexeme := none,
      error := some errorMessage,
      message := "eBay listing failed: " ++ errorMessage,
      rawResponse := xmlResponse }

/-- Modelled from the spec: "the first long-form error message" — the
first `<LongMessage>...</LongMessage>` content anywhere in the document,
with no single-line restriction.  (Stated for the refinement comparison
with `parseEbayResponse`.) -/
def firstLongMessageSpec (s : String) : Option String :=
  (findTagCapture "<LongMessage>".data "</LongMessage>".data true s.data).map
    (fun c => (⟨c⟩ : String))

/-- C7 (counterexample): a failure response whose first (and only)
`<LongMessage>` contains a line break: the message is present, but the
code's newline-blind inner regex misses it and reports
`'Unknown eBay error'` instead. -/
theorem C7_response_parser_counterexample :
    (parseEbayResponse
      "<Ack>Failure</Ack><Errors><LongMessage>Bad\ncategory</LongMessage></Errors>").success
      = false ∧
    firstLongMessageSpec
      "<Ack>Failure</Ack><Errors><LongMessage>Bad\ncategory</LongMessage></Errors>"
      = some "Bad\ncategory" ∧
    (parseEbayResponse
      "<Ack>Failure</Ack><Errors><LongMessage>Bad\ncategory</LongMessage></Errors>").error
      = some "Unknown eBay error" := by
  refine ⟨by decide, by decide, by decide⟩

/-- C7 (amended): `parseEbayResponse` is total (never throws); for every
input the raw response text is retained, `success` holds exactly when the
first same-line `<Ack>` capture is `Success` or `Warning`, and on
non-success the `error` field is the first single-line `<LongMessage>`
inside the first `<Errors>` block when one exists, else
`'Unknown eBay error'`; the spec's three concrete vectors behave as
stated. -/
theorem C7_response_parser_amended :
    (∀ s : String,
      (parseEbayResponse s).rawResponse = s ∧
      ((parseEbayResponse s).success = true ↔
        (ackOf s = "Success" ∨ ackOf s = "Warning")) ∧
      (parseEbayResponse s).error =
        (if ackOf s = "Success" ∨ ackOf s = "Warning" then none
         else some (longMsgOf s))) ∧
    ((parseEbayResponse "<Ack>Success</Ack><ItemID>123</ItemID>").success = true ∧
      (parseEbayResponse "<Ack>Success</Ack><ItemID>123</ItemID>").itemId = some "123" ∧
      (parseEbayResponse "<Ack>Success</Ack><ItemID>123</ItemID>").url =
        some "https://www.ebay.com/itm/123") ∧
    ((parseEbayResponse
        "<Ack>Failure</Ack><Errors><LongMessage>Bad category</LongMessage></Errors>").success
        = false ∧
      (parseEbayResponse
        "<Ack>Failure</Ack><Errors><LongMessage>Bad category</LongMessage></Errors>").error
        = some "Bad category") ∧
    ((parseEbayResponse "garbage ><>< not xml").success = false ∧
      (parseEbayResponse "garbage ><>< not xml").rawResponse =
        "garbage ><>< not xml") := by
  refine ⟨?_, ⟨by decide, by decide, by decide⟩,
    ⟨by decide, by decide⟩, ⟨by decide, by decide⟩⟩
  intro s
  unfold parseEbayResponse
  dsimp only
  by_cases h : ackOf s = "Success" ∨ ackOf s = "Warning"
  · rw [if_pos h, if_pos h]
    simpa using h
  · rw [if_neg h, if_neg h]
    simpa using h

/-! ## Photo hosting (`hostPhotoToServer`, ebayApi.js lines 36–100) -/

/-- A multer file object as the analyze handler sees it. -/
structure PhotoFile where
  originalname : Option String
  mimetype : Option String
  deriving DecidableEq, Repr, Inhabited

/-- The outcome of the single axios upload inside `hostPhotoToServer`:
either the request throws (network error, timeout, oversized payload),
or it resolves with a response body carrying optional `url`/`filename`. -/
inductive HostHttp where
  | fails (msg : String)
  | responds (url : Option String) (filename : Option String)
  deriving DecidableEq, Repr

/-- What `hostPhotoToServer` resolves with: the success object
`{success, hostedUrl, originalFilename, server}` or the catch-branch
object `{success:false, error, hostedUrl:null}` (the function never
rejects). -/
structure UploadResult where
  success : Bool
  hostedUrl : Option String
  originalFilename : Option String
  error : Option String
  deriving DecidableEq, Repr

/-- `hostPhotoToServer` (lines 36–100): missing host configuration and
every transport failure resolve to `{success:false, error}`; on an HTTP
response, a falsy `url` with a truthy `filename` takes the deterministic
`https://gamesighter.com/uploads/` fallback. -/
def hostPhotoToServer (cfgUrl : Option String) (originalFilename : String)
    (http : HostHttp) : UploadResult :=
  if jsTruthy cfgUrl = false then
    { success := false, hostedUrl := none, originalFilename := none,
      error := some "EXTERNAL_PHOTO_HOST_URL not configured" }
  else
    match http with
    | .fails msg =>
        { success := false, hostedUrl := none, originalFilename := none,
          error := some msg }
    | .responds url filename =>
        let hostedUrl := if jsTruthy url then url
          else if jsTruthy filename then
            some ("https://gamesighter.com/uploads/" ++ jsInterp filename)
          else url
        { success := true, hostedUrl := hostedUrl,
          originalFilename := some originalFilename, error := none }

theorem hostPhotoToServer_failure_error (cfgUrl : Option String)
    (name : String) (http : HostHttp)
    (h : (hostPhotoToServer cfgUrl name http).success = false) :
    ∃ m, (hostPhotoToServer cfgUrl name http).error = some m := by
  unfold hostPhotoToServer
  by_cases hc : jsTruthy cfgUrl = false
  · rw [if_pos hc]
    exact ⟨_, rfl⟩
  · rw [if_neg hc]
    cases http with
    | fails msg => exact ⟨msg, rfl⟩
    | responds url filename =>
        exfalso
        unfold hostPhotoToServer at h
        rw [if_neg hc] at h
        simp at h

/-! ## The `POST /api/analyze` handler, concurrent variant
(server.js lines 132–227)

The handler validates, launches one model call (`callOpenAI`, carrying
every photo in a single request) and one `hostPhotoToServer` task per
photo, and joins them with `Promise.all`.  `Promise.all` stores each
task's result in the slot of the task's index *when that task completes*;
the completion order is an arbitrary permutation of the tasks, modeled
explicitly by `order`. -/

/-- The per-task record after the `.then` wrapper of lines 173–177:
the spread of the upload result plus `index` and `originalFilename`.
(The `.catch` of lines 177–182 is unreachable: `hostPhotoToServer`
never rejects.) -/
structure UploadTaskResult where
  success : Bool
  hostedUrl : Option String
  originalFilename : String
  error : Option String
  index : Nat
  deriving DecidableEq, Repr, Inhabited

/-- One `hostedPhotos` entry (lines 195–212). -/
structure HostedPhoto where
  url : Option String
  error : Option String
  originalFilename : String
  index : Nat
  deriving DecidableEq, Repr

/-- The three responses the handler can send. -/
inductive AnalyzeResponse where
  | ok (rawResponse : String) (listingType : String) (photoCount : Nat)
      (hostedPhotos : List HostedPhoto)
  | badRequest (error : String)
  | serverError (error : String)
  deriving DecidableEq, Repr

/-- JS destructuring default (`const { listingType = "auto" } = ...`):
applies only when the field is `undefined`. -/
def jsDefault (o : Option String) (d : String) : String :=
  match o with
  | none => d
  | some s => s

/-- `Promise.all`'s result array: `n` slots, each written with task `i`'s
result when task `i` completes; `order` is the completion order. -/
def settleInOrder (n : Nat) (task : Nat → UploadTaskResult) (order : List Nat) :
    List UploadTaskResult :=
  order.foldl (fun acc i => acc.set i (task i)) (List.replicate n default)

theorem foldl_set_length (task : Nat → UploadTaskResult) (order : List Nat)
    (acc : List UploadTaskResult) :
    (order.foldl (fun a i => a.set i (task i)) acc).length = acc.length := by
  induction order generalizing acc with
  | nil => rfl
  | cons i rest ih => simp [List.foldl_cons, ih]

theorem foldl_set_getElem? (task : Nat → UploadTaskResult) (order : List Nat)
    (acc : List UploadTaskResult) (j : Nat) :
    (order.foldl (fun a i => a.set i (task i)) acc)[j]? =
      if j ∈ order ∧ j < acc.length then some (task j) else acc[j]? := by
  induction order generalizing acc with
  | nil => simp
  | cons i rest ih =>
      simp only [List.foldl_cons]
      rw [ih]
      simp only [List.length_set, List.mem_cons]
      by_cases hr : j ∈ rest
      · by_cases hj : j < acc.length
        · simp [hr, hj]
        · have h1 : (acc.set i (task i))[j]? = none :=
            List.getElem?_eq_none (by simpa using Nat.le_of_not_lt hj)
          have h2 : acc[j]? = none :=
            List.getElem?_eq_none (Nat.le_of_not_lt hj)
          simp [hr, hj, h1, h2]
      · by_cases hij : i = j
        · subst hij
          by_cases hj : i < acc.length
          · simp [hr, hj, List.getElem?_set_self, Nat.lt_irrefl]
          · have h1 : (acc.set i (task i))[i]? = none :=
              List.getElem?_eq_none (by simpa using Nat.le_of_not_lt hj)
            have h2 : acc[i]? = none :=
              List.getElem?_eq_none (Nat.le_of_not_lt hj)
            simp [hr, hj, h1, h2]
        · have hji : ¬ j = i := fun h => hij h.symm
          simp [hr, hji, List.getElem?_set_ne hij]

/-- However the upload tasks complete, `Promise.all` yields the results
in task-index order. -/
theorem settleInOrder_perm (n : Nat) (task : Nat → UploadTaskResult)
    (order : List Nat) (hperm : order.Perm (List.range n)) :
    settleInOrder n task order = (List.range n).map task := by
  apply List.ext_getElem?
  intro j
  unfold settleInOrder
  rw [foldl_set_getElem?]
  have hmem : j ∈ order ↔ j < n := by
    rw [hperm.mem_iff, List.mem_range]
  by_cases hj : j < n
  · simp [hmem, hj]
  · simp [hmem, hj, List.getElem?_eq_none, Nat.le_of_not_lt hj]

/-- The `POST /api/analyze` handler of server.js lines 132–227:
validation, one model call with all photos, one wrapped upload task per
photo, `Promise.all` join, then the hostedPhotos mapping of lines
195–212.  `modelOutcome` is the settled outcome of the OpenAI SDK call
(`callOpenAI` prefixes its failures with `OpenAI API error: `, line 90,
and the handler's catch turns any throw into a 500). -/
def analyzeHandler (cfgUrl : Option String) (photos : List PhotoFile)
    (prompt : Option String) (listingType : Option String)
    (modelOutcome : Except String String)
    (http : Nat → HostHttp) (order : List Nat) : AnalyzeResponse :=
  if photos.length = 0 then .badRequest "No photos provided"
  else if jsTruthy prompt = false then .badRequest "No prompt provided"
  else
    match modelOutcome with
    | .error e => .serverError ("OpenAI API error: " ++ e)
    | .ok aiResponse =>
        let n := photos.length
        let task := fun i =>
          let photo := photos.getD i default
          let name := jsOr photo.originalname ("photo_" ++ toString i ++ ".jpg")
          let r := hostPhotoToServer cfgUrl name (http i)
          { success := r.success, hostedUrl := r.hostedUrl, error := r.error,
            originalFilename := name, index := i : UploadTaskResult }
        let uploadResults := settleInOrder n task order
        let hostedPhotos := uploadResults.map (fun r =>
          if r.success then
            { url := r.hostedUrl, error := none,
              originalFilename := r.originalFilename, index := r.index }
          else
            { url := none, error := r.error,
              originalFilename := r.originalFilename, index := r.index })
        .ok aiResponse (jsDefault listingType "auto") n hostedPhotos

/-! ## Claims C1 and C2 -/

/-- C1: for every non-empty photo list and truthy prompt, when the model
call succeeds the handler responds `ok` with a `hostedPhotos` array whose
length equals the photo count and whose `index` fields are exactly
`0..N-1` in original submission order — for EVERY completion order of the
upload tasks. -/
theorem C1_hostedPhotos_order (cfgUrl : Option String) (photos : List PhotoFile)
    (prompt listingType : Option String) (t : String)
    (http : Nat → HostHttp) (order : List Nat)
    (hphotos : photos ≠ [])
    (hprompt : jsTruthy prompt = true)
    (hperm : order.Perm (List.range photos.length)) :
    ∃ hps : List HostedPhoto,
      analyzeHandler cfgUrl photos prompt listingType (.ok t) http order =
        .ok t (jsDefault listingType "auto") photos.length hps ∧
      hps.length = photos.length ∧
      hps.map (fun hp => hp.index) = List.range photos.length := by
  unfold analyzeHandler
  rw [if_neg (fun h => hphotos (List.length_eq_zero.mp h)),
    if_neg (by simp [hprompt])]
  dsimp only
  rw [settleInOrder_perm _ _ _ hperm]
  refine ⟨_, rfl, by simp, ?_⟩
  apply List.ext_getElem
  · simp
  · intro j h1 h2
    simp only [List.getElem_map, List.getElem_range]
    split <;> rfl

/-- Witness for C1 at two photos whose uploads complete out of order
(completion order `[1, 0]`). -/
theorem C1_hostedPhotos_order_witness :
    (([⟨some "a.jpg", some "image/jpeg"⟩, ⟨none, none⟩] : List PhotoFile) ≠ []) ∧
    jsTruthy (some "describe this") = true ∧
    ([1, 0] : List Nat).Perm (List.range 2) ∧
    ∃ hps : List HostedPhoto,
      analyzeHandler (some "https://host") 
        [⟨some "a.jpg", some "image/jpeg"⟩, ⟨none, none⟩]
        (some "describe this") none (.ok "RAW")
        (fun i => if i = 0 then .responds (some "https://u0") none
          else .fails "boom") [1, 0] =
        .ok "RAW" "auto" 2 hps ∧
      hps.length = 2 ∧
      hps.map (fun hp => hp.index) = List.range 2 :=
  ⟨by decide, by decide, by decide,
    C1_hostedPhotos_order (some "https://host")
      [⟨some "a.jpg", some "image/jpeg"⟩, ⟨none, none⟩]
      (some "describe this") none "RAW"
      (fun i => if i = 0 then .responds (some "https://u0") none
        else .fails "boom") [1, 0]
      (by decide) (by decide) (by decide)⟩

/-- C2: when the model call succeeds, the handler responds `ok` carrying
the model's raw text unchanged even if every upload fails; each failed
upload becomes a `HostedPhoto` with `url = none` and an error message,
and the join never rejects (the response is `ok`, not an error). -/
theorem C2_model_result_survives_upload_failures (cfgUrl : Option String)
    (photos : List PhotoFile) (prompt listingType : Option String)
    (t : String) (http : Nat → HostHttp) (order : List Nat)
    (hphotos : photos ≠ [])
    (hprompt : jsTruthy prompt = true)
    (hperm : order.Perm (List.range photos.length))
    (hfail : ∀ i name, (hostPhotoToServer cfgUrl name (http i)).success = false) :
    ∃ hps : List HostedPhoto,
      analyzeHandler cfgUrl photos prompt listingType (.ok t) http order =
        .ok t (jsDefault listingType "auto") photos.length hps ∧
      ∀ hp ∈ hps, hp.url = none ∧ ∃ m, hp.error = some m := by
  unfold analyzeHandler
  rw [if_neg (fun h => hphotos (List.length_eq_zero.mp h)),
    if_neg (by simp [hprompt])]
  dsimp only
  rw [settleInOrder_perm _ _ _ hperm]
  refine ⟨_, rfl, ?_⟩
  intro hp hmem
  rw [List.mem_map] at hmem
  obtain ⟨r, hr, rfl⟩ := hmem
  rw [List.mem_map] at hr
  obtain ⟨i, _, rfl⟩ := hr
  have hs := hfail i (jsOr (photos[i]?.getD default).originalname
    ("photo_" ++ toString i ++ ".jpg"))
  obtain ⟨m, hm⟩ := hostPhotoToServer_failure_error _ _ _ hs
  refine ⟨?_, m, ?_⟩ <;> simp [hs, hm]

/-- Witness for C2: the photo-host URL is unconfigured, so both uploads
fail, yet the handler returns `ok` with the raw model text. -/
theorem C2_model_result_survives_upload_failures_witness :
    (([⟨some "a.jpg", none⟩, ⟨some "b.jpg", none⟩] : List PhotoFile) ≠ []) ∧
    jsTruthy (some "p") = true ∧
    ([1, 0] : List Nat).Perm (List.range 2) ∧
    (∀ (_i : Nat) (name : String),
      (hostPhotoToServer none name (HostHttp.fails "net down")).success = false) ∧
    ∃ hps : List HostedPhoto,
      analyzeHandler none [⟨some "a.jpg", none⟩, ⟨some "b.jpg", none⟩]
        (some "p") (some "BOOK_ITEM") (.ok "THE RAW TEXT")
        (fun _ => .fails "net down") [1, 0] =
        .ok "THE RAW TEXT" "BOOK_ITEM" 2 hps ∧
      ∀ hp ∈ hps, hp.url = none ∧ ∃ m, hp.error = some m :=
  ⟨by decide, by decide, by decide, fun _ _ => rfl,
    C2_model_result_survives_upload_failures none
      [⟨some "a.jpg", none⟩, ⟨some "b.jpg", none⟩] (some "p")
      (some "BOOK_ITEM") "THE RAW TEXT" (fun _ => .fails "net down") [1, 0]
      (by decide) (by decide) (by decide) (fun _ _ => rfl)⟩

/-! ## Claim C3: control-flow traces of the two analyze handlers

The program-order traces of the two `POST /api/analyze` handlers, as
abstract start/await events.  Starting a task means creating its promise
(the network call begins there); `await p` (and `Promise.all` joining)
means p's completion happens before every subsequent action. -/

inductive AnalyzeAction where
  | startModel
  | awaitModel
  | startUpload (i : Nat)
  | awaitUpload (i : Nat)
  | respond
  deriving DecidableEq, Repr

/-- server.js (concurrent variant), lines 158–221: `openaiPromise` is
created (line 164), every upload promise is created (lines 167–183),
then `await Promise.all([openaiPromise, Promise.all(uploadPromises)])`
joins them all (lines 186–189), and only then does `res.json` respond
(line 215). -/
def serverAnalyzeTrace (n : Nat) : List AnalyzeAction :=
  AnalyzeAction.startModel :: (List.range n).map AnalyzeAction.startUpload ++
    AnalyzeAction.awaitModel :: (List.range n).map AnalyzeAction.awaitUpload ++
    [AnalyzeAction.respond]

/-- new-server.js, lines 159–206: `const aiResponse = await callOpenAI(…)`
creates and immediately awaits the model call (line 159); then the
`for` loop awaits `hostPhotoToServer` for each photo in turn (lines
166–192); then `res.json` responds (line 200). -/
def newServerAnalyzeTrace (n : Nat) : List AnalyzeAction :=
  AnalyzeAction.startModel :: AnalyzeAction.awaitModel ::
    (List.range n).flatMap
      (fun i => [AnalyzeAction.startUpload i, AnalyzeAction.awaitUpload i]) ++
    [AnalyzeAction.respond]

/-- After the model call is awaited, no upload task is started — i.e.
every upload is launched while the model call is still in flight. -/
def noUploadStartAfterModelAwait : List AnalyzeAction → Bool
  | [] => true
  | AnalyzeAction.awaitModel :: rest =>
      rest.all (fun a => match a with
        | AnalyzeAction.startUpload _ => false
        | _ => true)
  | _ :: rest => noUploadStartAfterModelAwait rest

/-- After the response is sent, nothing more is awaited — i.e. the
response happens only after the join. -/
def noAwaitAfterRespond : List AnalyzeAction → Bool
  | [] => true
  | AnalyzeAction.respond :: rest =>
      rest.all (fun a => match a with
        | AnalyzeAction.awaitModel => false
        | AnalyzeAction.awaitUpload _ => false
        | _ => true)
  | _ :: rest => noAwaitAfterRespond rest

/-- The fan-out/fan-in property of C3 for an `n`-photo request: exactly
one model call, exactly one upload start and one upload await per photo,
exactly one response; every upload starts before the model await; and
the response comes after the model await and every upload await. -/
def fanOutJoin (n : Nat) (tr : List AnalyzeAction) : Bool :=
  (tr.count AnalyzeAction.startModel = 1 &&
   tr.count AnalyzeAction.awaitModel = 1 &&
   tr.count AnalyzeAction.respond = 1) &&
  ((List.range n).all (fun i =>
    tr.count (AnalyzeAction.startUpload i) = 1 &&
    tr.count (AnalyzeAction.awaitUpload i) = 1)) &&
  noUploadStartAfterModelAwait tr &&
  noAwaitAfterRespond tr

/-- The model call is awaited before any upload is started. -/
def modelAwaitedBeforeUploads : List AnalyzeAction → Bool
  | [] => true
  | AnalyzeAction.startUpload _ :: _ => false
  | AnalyzeAction.awaitModel :: _ => true
  | _ :: rest => modelAwaitedBeforeUploads rest

/-- C3 (counterexample): for a one-photo request, the new-server.js
handler's trace awaits the model call before starting the upload — the
uploads run sequentially after the model call, so the fan-out/fan-in
property of the claim fails on it. -/
theorem C3_concurrency_counterexample :
    fanOutJoin 1 (newServerAnalyzeTrace 1) = false ∧
    noUploadStartAfterModelAwait (newServerAnalyzeTrace 1) = false ∧
    modelAwaitedBeforeUploads (newServerAnalyzeTrace 1) = true ∧
    fanOutJoin 1 (serverAnalyzeTrace 1) = true := by
  refine ⟨by decide, by decide, by decide, by decide⟩

theorem count_map_startUpload (i : Nat) (l : List Nat) :
    (l.map AnalyzeAction.startUpload).count (AnalyzeAction.startUpload i) =
      l.count i := by
  apply List.count_map_of_injective
  intro a b h
  cases h
  rfl

theorem count_map_awaitUpload (i : Nat) (l : List Nat) :
    (l.map AnalyzeAction.awaitUpload).count (AnalyzeAction.awaitUpload i) =
      l.count i := by
  apply List.count_map_of_injective
  intro a b h
  cases h
  rfl

theorem noUploadStartAfterModelAwait_upToAwait (A : List Nat)
    (tail : List AnalyzeAction) :
    noUploadStartAfterModelAwait ((A.map AnalyzeAction.startUpload) ++
      AnalyzeAction.awaitModel :: tail) =
    tail.all (fun a => match a with
      | AnalyzeAction.startUpload _ => false
      | _ => true) := by
  induction A with
  | nil => rfl
  | cons i A ih => simpa [noUploadStartAfterModelAwait] using ih

theorem noAwaitAfterRespond_of_notin (l : List AnalyzeAction)
    (h : AnalyzeAction.respond ∉ l) :
    noAwaitAfterRespond (l ++ [AnalyzeAction.respond]) = true := by
  induction l with
  | nil => rfl
  | cons a rest ih =>
      have ha : a ≠ AnalyzeAction.respond :=
        fun he => h (he ▸ List.mem_cons_self _ _)
      have hr : AnalyzeAction.respond ∉ rest :=
        fun hm => h (List.mem_cons_of_mem _ hm)
      cases a with
      | respond => exact absurd rfl ha
      | startModel => simpa [noAwaitAfterRespond] using ih hr
      | awaitModel => simpa [noAwaitAfterRespond] using ih hr
      | startUpload i => simpa [noAwaitAfterRespond] using ih hr
      | awaitUpload i => simpa [noAwaitAfterRespond] using ih hr

theorem serverTrace_fanOutJoin (n : Nat) :
    fanOutJoin n (serverAnalyzeTrace n) = true := by
  have zs1 : ((List.range n).map AnalyzeAction.startUpload).count
      AnalyzeAction.startModel = 0 := List.count_eq_zero.mpr (by simp)
  have zs2 : ((List.range n).map AnalyzeAction.startUpload).count
      AnalyzeAction.awaitModel = 0 := List.count_eq_zero.mpr (by simp)
  have zs3 : ((List.range n).map AnalyzeAction.startUpload).count
      AnalyzeAction.respond = 0 := List.count_eq_zero.mpr (by simp)
  have za1 : ((List.range n).map AnalyzeAction.awaitUpload).count
      AnalyzeAction.startModel = 0 := List.count_eq_zero.mpr (by simp)
  have za2 : ((List.range n).map AnalyzeAction.awaitUpload).count
      AnalyzeAction.awaitModel = 0 := List.count_eq_zero.mpr (by simp)
  have za3 : ((List.range n).map AnalyzeAction.awaitUpload).count
      AnalyzeAction.respond = 0 := List.count_eq_zero.mpr (by simp)
  unfold fanOutJoin serverAnalyzeTrace
  simp only [Bool.and_eq_true, decide_eq_true_eq]
  refine ⟨⟨⟨⟨⟨?_, ?_⟩, ?_⟩, ?_⟩, ?_⟩, ?_⟩
  · simp [List.count_cons, List.count_append, zs1, za1]
  · simp [List.count_cons, List.count_append, zs2, za2]
  · simp [List.count_cons, List.count_append, zs3, za3]
  · rw [List.all_eq_true]
    intro i hi
    rw [List.mem_range] at hi
    have h1 : ((List.range n).map AnalyzeAction.startUpload).count
        (AnalyzeAction.startUpload i) = 1 := by
      rw [count_map_startUpload]
      exact List.count_eq_one_of_mem (List.nodup_range n) (List.mem_range.mpr hi)
    have h2 : ((List.range n).map AnalyzeAction.awaitUpload).count
        (AnalyzeAction.awaitUpload i) = 1 := by
      rw [count_map_awaitUpload]
      exact List.count_eq_one_of_mem (List.nodup_range n) (List.mem_range.mpr hi)
    have hmix1 : ((List.range n).map AnalyzeAction.awaitUpload).count
        (AnalyzeAction.startUpload i) = 0 := List.count_eq_zero.mpr (by simp)
    have hmix2 : ((List.range n).map AnalyzeAction.startUpload).count
        (AnalyzeAction.awaitUpload i) = 0 := List.count_eq_zero.mpr (by simp)
    simp [List.count_cons, List.count_append, h1, h2, hmix1, hmix2]
  · simp only [List.cons_append, List.append_assoc]
    rw [show noUploadStartAfterModelAwait
        (AnalyzeAction.startModel :: ((List.range n).map AnalyzeAction.startUpload ++
          AnalyzeAction.awaitModel :: ((List.range n).map AnalyzeAction.awaitUpload ++
          [AnalyzeAction.respond]))) =
      noUploadStartAfterModelAwait
        ((List.range n).map AnalyzeAction.startUpload ++
          AnalyzeAction.awaitModel :: ((List.range n).map AnalyzeAction.awaitUpload ++
          [AnalyzeAction.respond])) from rfl]
    rw [noUploadStartAfterModelAwait_upToAwait]
    simp [List.all_append, List.all_map, List.all_eq_true, Function.comp]
  · simp only [List.cons_append, List.append_assoc]
    rw [show (AnalyzeAction.startModel :: ((List.range n).map AnalyzeAction.startUpload ++
        AnalyzeAction.awaitModel :: ((List.range n).map AnalyzeAction.awaitUpload ++
        [AnalyzeAction.respond]))) =
      (AnalyzeAction.startModel :: ((List.range n).map AnalyzeAction.startUpload ++
        AnalyzeAction.awaitModel :: (List.range n).map AnalyzeAction.awaitUpload)) ++
        [AnalyzeAction.respond] from by simp]
    apply noAwaitAfterRespond_of_notin
    intro hmem
    simp [List.mem_cons, List.mem_append, List.mem_map] at hmem

/-- C3 (amended): for every photo count, the server.js (concurrent)
handler satisfies the claimed fan-out/fan-in shape — one model call and
one upload task per photo, all launched before any await, joined before
the response — while the new-server.js handler instead awaits the model
call first and only then runs the uploads sequentially, so the claim
holds only for the concurrent variant. -/
theorem C3_concurrency_amended (n : Nat) :
    fanOutJoin n (serverAnalyzeTrace n) = true ∧
    modelAwaitedBeforeUploads (newServerAnalyzeTrace n) = true :=
  ⟨serverTrace_fanOutJoin n, rfl⟩

/-! ## The batch poster (`ebayPostingService.js`) -/

/-- The flat listing fields read when building the request body (the
code accepts them either directly on the listing or under
`parsedListing`); both `itemSpecifics` and `item_specifics` spellings are
consulted. -/
structure FlatListing where
  title : Option String
  price : Option String
  condition : Option String
  category : Option String
  description : Option String
  itemSpecifics : Option (List (String × String))
  item_specifics : Option (List (String × String))
  listingType : Option String
  deriving DecidableEq, Repr

/-- A listing object handed to `postSingleListing` (lines 23–119).
`photos` models only the length of `listingData.photos` (the code reads
nothing else from it); `listingTypeTag` is `listingData.listingType?.type`. -/
structure ClientListing where
  id : Option String
  parsedListing : Option FlatListing
  flat : FlatListing
  hostedPhotos : Option (List HostedPhoto)
  photos : Option Nat
  listingTypeTag : Option String
  deriving DecidableEq, Repr

/-- The JSON body POSTed to `/api/list-to-ebay-with-urls` (lines 63–72). -/
structure EbayListingRequest where
  title : Option String
  price : Option String
  condition : Option String
  category : Option String
  description : Option String
  itemSpecifics : List (String × String)
  listingType : String
  hostedPhotoUrls : List String
  deriving DecidableEq, Repr

/-- Settled outcome of the `fetch` to the posting endpoint: the fetch
itself rejecting, a non-ok HTTP status with its error text, or a parsed
JSON body `{success, error, message, data:{itemId, ebayListingId, url}}`. -/
inductive FetchOutcome where
  | netThrow (msg : String)
  | httpError (status : Nat) (bodyText : String)
  | httpOk (success : Bool) (error : Option String) (message : Option String)
      (itemId : Option String) (ebayListingId : Option String)
      (url : Option String)
  deriving DecidableEq, Repr

/-- What `postSingleListing` resolves with (it never rejects: every
throw is caught at lines 110–118).  The opaque `data` passthrough field
is not modeled. -/
structure PostResult where
  success : Bool
  listingId : Option String
  ebayListingId : Option String
  message : String
  error : Option String
  url : Option String
  deriving DecidableEq, Repr

/-- `!listingData.hostedPhotos || listingData.hostedPhotos.length === 0`. -/
def jsFalsyPhotos (o : Option (List HostedPhoto)) : Bool :=
  match o with
  | none => true
  | some l => l.isEmpty

/-- The valid hosted URLs: `photo.url && !photo.error` (lines 49–51). -/
def validHostedUrls (o : Option (List HostedPhoto)) : List String :=
  ((o.getD []).filter (fun p => jsTruthy p.url && !jsTruthy p.error)).map
    (fun p => p.url.getD "")

/-- Does the listing carry zero valid (non-error) hosted URLs? -/
def zeroValidUrls (ld : ClientListing) : Bool :=
  (validHostedUrls ld.hostedPhotos).isEmpty

/-- The catch-branch result (lines 110–118). -/
def postFailure (id : Option String) (msg : String) : PostResult :=
  { success := false, listingId := id, ebayListingId := none,
    message := "Failed to post listing to eBay", error := some msg,
    url := none }

/-- `postSingleListing(listingData)` (lines 23–119), with the network as
an explicit oracle.  The second component records the requests actually
sent (empty when a precondition throws before `fetch`). -/
def postSingleListing (net : EbayListingRequest → FetchOutcome)
    (ld : ClientListing) : PostResult × List EbayListingRequest :=
  if jsFalsyPhotos ld.hostedPhotos then
    if (match ld.photos with | none => false | some c => c > 0) then
      (postFailure ld.id "Photos are not hosted yet. Please try regenerating the listing or wait for photos to upload to GameSighter.", [])
    else
      (postFailure ld.id "No photos available - listing requires photos for eBay posting", [])
  else
    let photoUrls := validHostedUrls ld.hostedPhotos
    if photoUrls.isEmpty then
      (postFailure ld.id "No valid hosted photo URLs found - all photos failed to upload", [])
    else
      let listing := ld.parsedListing.getD ld.flat
      let req : EbayListingRequest :=
        { title := listing.title, price := listing.price,
          condition := listing.condition, category := listing.category,
          description := listing.description,
          itemSpecifics :=
            (match listing.itemSpecifics with
             | some m => m
             | none =>
                 match listing.item_specifics with
                 | some m => m
                 | none => []),
          listingType := jsOr (jsOrO ld.listingTypeTag listing.listingType)
            "GENERAL_LISTING",
          hostedPhotoUrls := photoUrls }
      match net req with
      | .netThrow m => (postFailure ld.id m, [req])
      | .httpError status body =>
          (postFailure ld.id ("HTTP " ++ toString status ++ ": " ++ body), [req])
      | .httpOk ok err msg itemId ebayListingId url =>
          if ok then
            ({ success := true, listingId := ld.id,
               ebayListingId := jsOrO itemId ebayListingId,
               message := jsOr msg "Listing posted successfully to eBay",
               error := none, url := url }, [req])
          else
            (postFailure ld.id (jsOr (jsOrO err msg) "Unknown eBay error"), [req])

/-- The aggregated counters and per-listing results (lines 130–161). -/
structure BatchData where
  total : Nat
  successful : Nat
  failed : Nat
  results : List PostResult
  deriving DecidableEq, Repr

/-- What `postAllListings` resolves with. -/
structure BatchResponse where
  success : Bool
  message : String
  data : Option BatchData
  error : Option String
  deriving DecidableEq, Repr

/-- `postAllListings(listingsArray)` (lines 126–178): one
`postSingleListing` per listing joined with `Promise.allSettled`
(`postSingleListing` never rejects, so the rejected branch of lines
152–160 is dead), results pushed in input order, and success/failure
counters.  The second component records every request sent. -/
def postAllListings (net : EbayListingRequest → FetchOutcome)
    (listingsArray : List ClientListing) : BatchResponse × List EbayListingRequest :=
  let settled := listingsArray.map (postSingleListing net)
  let results := settled.map (fun p => p.1)
  let successful := (results.filter (fun r => r.success)).length
  let failed := (results.filter (fun r => !r.success)).length
  ({ success := true,
     message := "Posted " ++ toString successful ++ " of " ++
       toString listingsArray.length ++ " listings successfully",
     data := some { total := listingsArray.length, successful := successful,
                    failed := failed, results := results },
     error := none },
   settled.flatMap (fun p => p.2))

theorem length_filter_partition (rs : List PostResult) :
    (rs.filter (fun r => r.success)).length +
      (rs.filter (fun r => !r.success)).length = rs.length := by
  induction rs with
  | nil => rfl
  | cons r rest ih =>
      rw [List.filter_cons, List.filter_cons]
      by_cases h : r.success = true
      · rw [if_pos (by simp [h]), if_neg (by simp [h])]
        simp only [List.length_cons]
        omega
      · rw [if_neg (by simp [h]), if_pos (by simp [h])]
        simp only [List.length_cons]
        omega

theorem postSingleListing_zero_valid (net : EbayListingRequest → FetchOutcome)
    (ld : ClientListing) (h : zeroValidUrls ld = true) :
    (postSingleListing net ld).1.success = false ∧
    (postSingleListing net ld).2 = [] := by
  unfold postSingleListing
  by_cases h1 : jsFalsyPhotos ld.hostedPhotos = true
  · rw [if_pos h1]
    split <;> exact ⟨rfl, rfl⟩
  · rw [if_neg h1]
    dsimp only
    rw [if_pos (by simpa [zeroValidUrls] using h)]
    exact ⟨rfl, rfl⟩

/-- C8: the batch poster reports `total = M`, exactly `M` per-listing
results in input order (slot `i` is the outcome of listing `i`),
`successful + failed = M`, and any listing with zero valid (non-error)
hosted URLs yields a failed result without any network request being
sent for it. -/
theorem C8_batch_poster (net : EbayListingRequest → FetchOutcome)
    (xs : List ClientListing) :
    ∃ d, (postAllListings net xs).1.data = some d ∧
      d.total = xs.length ∧
      d.results.length = xs.length ∧
      d.successful + d.failed = xs.length ∧
      (∀ i : Nat, d.results[i]? =
        (xs[i]?).map (fun l => (postSingleListing net l).1)) ∧
      (∀ l ∈ xs, zeroValidUrls l = true →
        (postSingleListing net l).1.success = false ∧
        (postSingleListing net l).2 = []) := by
  unfold postAllListings
  dsimp only
  refine ⟨_, rfl, rfl, by simp, ?_, ?_, ?_⟩
  · simpa using length_filter_partition (xs.map (fun l => (postSingleListing net l).1))
  · intro i
    simp only [List.getElem?_map, Option.map_map]
    cases xs[i]? <;> rfl
  · intro l _ hzero
    exact postSingleListing_zero_valid net l hzero

/-- Concrete inputs for the C8 witness: the first listing has an
empty hosted-photo array, the second a valid hosted URL. -/
def listingNoPhotosC8 : ClientListing :=
  { id := some "L0", parsedListing := none,
    flat := { title := some "A", price := some "1", condition := none,
              category := none, description := none, itemSpecifics := none,
              item_specifics := none, listingType := none },
    hostedPhotos := some [], photos := some 2, listingTypeTag := none }

def listingWithPhotoC8 : ClientListing :=
  { id := some "L1", parsedListing := none,
    flat := { title := some "B", price := some "2", condition := none,
              category := none, description := none, itemSpecifics := none,
              item_specifics := none, listingType := none },
    hostedPhotos := some [{ url := some "https://h/x.jpg", error := none,
                            originalFilename := "x.jpg", index := 0 }],
    photos := some 1, listingTypeTag := none }

/-- A posting endpoint that accepts everything. -/
def netAlwaysOkC8 : EbayListingRequest → FetchOutcome :=
  fun _ => .httpOk true none none (some "123") none
    (some "https://www.ebay.com/itm/123")

/-- Witness instantiating `C8_batch_poster` on a two-listing batch whose
first listing has zero valid hosted URLs. -/
theorem C8_batch_poster_witness :
    zeroValidUrls listingNoPhotosC8 = true ∧
    ∃ d, (postAllListings netAlwaysOkC8
        [listingNoPhotosC8, listingWithPhotoC8]).1.data = some d ∧
      d.total = 2 ∧ d.results.length = 2 ∧ d.successful + d.failed = 2 ∧
      (postSingleListing netAlwaysOkC8 listingNoPhotosC8).1.success = false ∧
      (postSingleListing netAlwaysOkC8 listingNoPhotosC8).2 = [] := by
  obtain ⟨d, hd, h1, h2, h3, _, h5⟩ :=
    C8_batch_poster netAlwaysOkC8 [listingNoPhotosC8, listingWithPhotoC8]
  have hz : zeroValidUrls listingNoPhotosC8 = true := by decide
  obtain ⟨hs, hc⟩ := h5 listingNoPhotosC8 (by decide) hz
  exact ⟨hz, d, hd, h1, h2, h3, hs, hc⟩

end EbayEasyLister
